import Mathlib

/-!
# Verification of the package.json normalization machine

Shallow embedding of the `Parse package.json` machine (`fn` in the source):
JSON values are modelled as an inductive `JVal` (numbers as integers; the
claims under verification never depend on non-integral numerics), JavaScript
`undefined` as `Option.none` at access sites, and a thrown exception during
field derivation as `Except.error`.  `JSON.parse` is a platform builtin, so
`fn` takes the parse outcome directly: `none` models a parse throw.
-/

set_option linter.unusedVariables false

namespace ParsePackageJson

/-- A parsed JSON document.  Object fields are kept in document order, which
is also the iteration order JavaScript exposes for the string keys produced
by `JSON.parse` on package metadata. -/
inductive JVal where
  | null : JVal
  | bool : Bool → JVal
  | num : Int → JVal
  | str : String → JVal
  | arr : List JVal → JVal
  | obj : List (String × JVal) → JVal

/-- JavaScript truthiness of a value. -/
def truthy : JVal → Bool
  | .null => false
  | .bool b => b
  | .num n => !(n == 0)
  | .str s => !(s == "")
  | .arr _ => true
  | .obj _ => true

/-- Truthiness of a possibly-`undefined` value. -/
def truthyO : Option JVal → Bool
  | none => false
  | some v => truthy v

/-- First binding of a key in an object's field list. -/
def lookupStr : List (String × JVal) → String → Option JVal
  | [], _ => none
  | (k, v) :: rest, key => if k == key then some v else lookupStr rest key

/-- Property access `v[k]` on a non-null base: objects look the key up, every
other base yields `undefined`.  (Access on `null`/`undefined` throws instead;
callers model that case separately.) -/
def jsGetV : JVal → String → Option JVal
  | .obj fs, k => lookupStr fs k
  | _, _ => none

/-- `String(v)` for scalar values; nested arrays inside an array are
approximated (they never occur in the documents the claims consider). -/
def jsStringScalar : JVal → String
  | .null => "null"
  | .bool b => cond b "true" "false"
  | .num n => toString n
  | .str s => s
  | .arr _ => ""
  | .obj _ => "[object Object]"

/-- JavaScript `String(v)` / `util.format("%s", v)` conversion: `null`
entries of an array join as empty strings. -/
def jsString : JVal → String
  | .arr xs => String.intercalate "," (xs.map (fun v =>
      match v with
      | .null => ""
      | v => jsStringScalar v))
  | v => jsStringScalar v

/-- `String(v)` where the value may be `undefined` (as in a property key or
a `util.format` argument). -/
def jsStringO : Option JVal → String
  | none => "undefined"
  | some v => jsString v

/-- `s.replace(/\/$/, '')`: drop a single trailing slash. -/
def stripOneSlash (s : String) : String :=
  match s.data.reverse with
  | '/' :: rest => String.mk rest.reverse
  | _ => s

/-- The canonical public registry origin (`publicRegistry` in the source). -/
def publicRegistry : String := "http://npmjs.org"

/-- Line 80-85 of the source: `dist-tags.latest` when `dist-tags` is truthy,
else the document's own `version`. -/
def effectiveVersion (d : JVal) : Option JVal :=
  match jsGetV d "dist-tags" with
  | some dt => if truthy dt then jsGetV dt "latest" else jsGetV d "version"
  | none => jsGetV d "version"

/-- Line 97 of the source: `_data.versions ? _data.versions[version] : _data`.
The subscript key is the JavaScript string conversion of the version value. -/
def resolvedManifest (d : JVal) : Option JVal :=
  match jsGetV d "versions" with
  | some vs =>
      if truthy vs then jsGetV vs (jsStringO (effectiveVersion d)) else some d
  | none => some d

/-- Lines 91-93: `publishConfig && publishConfig.registry || publicRegistry`. -/
def registryVal (d : JVal) : JVal :=
  match jsGetV d "publishConfig" with
  | some pc =>
      if truthy pc then
        match jsGetV pc "registry" with
        | some rv => if truthy rv then rv else .str publicRegistry
        | none => .str publicRegistry
      else .str publicRegistry
  | none => .str publicRegistry

/-! ## Repository URL canonicalization (`extractRepoUrl`, lines 115-143) -/

/-- If the character list starts with `github.com` followed by `:` or `/`,
return the remainder. -/
def ghMatchAt : List Char → Option (List Char)
  | 'g' :: 'i' :: 't' :: 'h' :: 'u' :: 'b' :: '.' :: 'c' :: 'o' :: 'm' :: c :: rest =>
      if c = ':' || c = '/' then some rest else none
  | _ => none

/-- JavaScript line terminators, which `.` in a regex does not match. -/
def isLineTerm (c : Char) : Bool :=
  c = '\n' || c = '\r' || c = ' ' || c = ' '

/-- The suffix after the last `github.com:` / `github.com/` occurrence whose
prefix contains no line terminator — exactly what the greedy anchored regex
`/^.*github\.com[:\/]/` consumes. -/
def lastGh : List Char → Option (List Char)
  | [] => none
  | c :: rest =>
      if isLineTerm c then none
      else
        match lastGh rest with
        | some tail => some tail
        | none => ghMatchAt (c :: rest)

/-- `s.replace(/^.*github\.com[:\/]/, 'http://github.com/')`. -/
def replaceGithub (s : String) : String :=
  match lastGh s.data with
  | some tail => String.mk ("http://github.com/".data ++ tail)
  | none => s

/-- `s.replace(/\.git$/, '')`. -/
def stripDotGit (s : String) : String :=
  match s.data.reverse with
  | 't' :: 'i' :: 'g' :: '.' :: rest => String.mk rest.reverse
  | _ => s

/-- `s.replace(/\/*$/, '/')`: drop every trailing slash, then append one. -/
def ensureSlash (s : String) : String :=
  String.mk ((s.data.reverse.dropWhile (fun c => c = '/')).reverse ++ ['/'])

/-- The full replace chain of lines 134-136. -/
def canonRepoUrl (s : String) : String :=
  ensureSlash (stripDotGit (replaceGithub s))

/-- `extractRepoUrl` (lines 115-143).  A string repository is canonicalized;
a non-string non-object repository yields `undefined`; an object (lodash
counts arrays as objects) must carry a string `url` or the subsequent
`.replace` call throws, which the outer catch turns into a failure. -/
def extractRepoUrl (lv : JVal) : Except Unit (Option String) :=
  match jsGetV lv "repository" with
  | some (.str s) => .ok (some (canonRepoUrl s))
  | some (.obj fs) =>
      match lookupStr fs "url" with
      | some (.str u) => .ok (some (canonRepoUrl u))
      | _ => .error ()
  | some (.arr _) => .error ()
  | _ => .ok none

/-! ## Contributor aggregation (`buildAggregatedContributorsList`, lines 146-169) -/

/-- A normalized contributor entry; `none` models `undefined`. -/
structure Contributor where
  name : Option JVal
  email : Option JVal

/-- JavaScript strict equality `===` on contributor keys.  Distinct array or
object values coming out of one `JSON.parse` call are never reference-equal,
so composite keys compare unequal. -/
def keyEq : Option JVal → Option JVal → Bool
  | none, none => true
  | some .null, some .null => true
  | some (.bool a), some (.bool b) => a == b
  | some (.num a), some (.num b) => a == b
  | some (.str a), some (.str b) => a == b
  | _, _ => false

/-- Normalization of one contributor entry (lines 158-163): a string is its
own name; `null` throws on the `.name` access; anything else reads `name`
and `email` properties, with a falsy email collapsed to `undefined`. -/
def normContrib : JVal → Except Unit Contributor
  | .null => .error ()
  | .str s => .ok ⟨some (.str s), none⟩
  | v =>
      .ok ⟨jsGetV v "name",
           match jsGetV v "email" with
           | some e => if truthy e then some e else none
           | none => none⟩

/-- `_.map` over the aggregated list: the first throwing entry aborts. -/
def mapContribs : List JVal → Except Unit (List Contributor)
  | [] => .ok []
  | v :: vs =>
      match normContrib v with
      | .error e => .error e
      | .ok c =>
          match mapContribs vs with
          | .error e => .error e
          | .ok cs => .ok (c :: cs)

/-- `_.uniq` with a `name` iteratee: keep the first entry for each key. -/
def uniqAux (seen : List (Option JVal)) : List Contributor → List Contributor
  | [] => []
  | c :: cs =>
      if seen.any (fun k => keyEq k c.name) then uniqAux seen cs
      else c :: uniqAux (c.name :: seen) cs

/-- Deduplicate contributors by name, keeping first occurrences in order. -/
def uniqByName (cs : List Contributor) : List Contributor := uniqAux [] cs

/-- Lines 146-156: seed with a truthy `author`, then append `contributors`
and `maintainers` whenever they are arrays. -/
def rawContributors (lv : JVal) : List JVal :=
  (match jsGetV lv "author" with
   | some a => if truthy a then [a] else []
   | none => []) ++
  (match jsGetV lv "contributors" with
   | some (.arr xs) => xs
   | _ => []) ++
  (match jsGetV lv "maintainers" with
   | some (.arr xs) => xs
   | _ => [])

/-- Lines 146-169: aggregate the three contributor sources, normalize each
entry, deduplicate by name. -/
def aggContributors (lv : JVal) : Except Unit (List Contributor) :=
  match mapContribs (rawContributors lv) with
  | .error e => .error e
  | .ok cs => .ok (uniqByName cs)

/-! ## Dependencies (lines 100-106) and the output record -/

/-- One `{name, semverRange}` entry pushed by the dependencies reduce. -/
structure Dependency where
  name : JVal
  semverRange : JVal

/-- `_.reduce(latestVersion.dependencies, push, [])`: objects iterate their
fields in order, arrays (and, array-likewise, strings) iterate with numeric
indices as names, and every other value contributes nothing. -/
def lodashReduceDeps : Option JVal → List Dependency
  | some (.obj fs) => fs.map (fun p => ⟨.str p.1, p.2⟩)
  | some (.arr xs) => xs.enum.map (fun p => ⟨.num p.1, p.2⟩)
  | some (.str s) => s.data.enum.map (fun p => ⟨.num p.1, .str (String.mk [p.2])⟩)
  | _ => []

/-- The successful output of the machine (`moduleMetadata`). -/
structure Record where
  name : Option JVal
  description : Option JVal
  keywords : Option JVal
  version : Option JVal
  latestVersionPublishedAt : Option JVal
  author : Option JVal
  license : Option JVal
  «private» : Option JVal
  publishConfig : Option JVal
  registry : String
  usesPublicRegistry : Bool
  npmUrl : String
  sourceUrl : Option String
  dependencies : List Dependency
  contributors : List Contributor

/-- Line 77: `_data._id || _data.name`. -/
def nameField (d : JVal) : Option JVal :=
  if truthyO (jsGetV d "_id") then jsGetV d "_id" else jsGetV d "name"

/-- Line 86: `_data.time ? _data.time.modified : ''`. -/
def publishedAtField (d : JVal) : Option JVal :=
  match jsGetV d "time" with
  | some t => if truthy t then jsGetV t "modified" else some (.str "")
  | none => some (.str "")

/-- The record assembled on the success path, once the resolved manifest
`lv` is usable and the registry value is the string `reg`. -/
def buildRecord (d lv : JVal) (reg : String) (su : Option String)
    (cs : List Contributor) : Record :=
  { name := nameField d
    description := jsGetV d "description"
    keywords := jsGetV d "keywords"
    version := effectiveVersion d
    latestVersionPublishedAt := publishedAtField d
    author := jsGetV d "author"
    license := jsGetV d "license"
    «private» := jsGetV d "private"
    publishConfig := jsGetV d "publishConfig"
    registry := reg
    usesPublicRegistry := reg == publicRegistry
    npmUrl := stripOneSlash reg ++ "/package/" ++ jsStringO (nameField d)
    sourceUrl := su
    dependencies := lodashReduceDeps (jsGetV lv "dependencies")
    contributors := cs }

/-- Is the value `null`? -/
def isNull : JVal → Bool
  | .null => true
  | _ => false

/-- The string carried by a string value. -/
def asString : JVal → Option String
  | .str s => some s
  | _ => none

/-- The body of the second `try` block (lines 75-173): any throw — an
unusable resolved manifest at the dependencies access, a non-string registry
at the `npmUrl` replace, a malformed repository object, or a `null`
contributor — aborts the whole derivation. -/
def derive (d : JVal) : Except Unit Record :=
  match resolvedManifest d with
  | none => .error ()
  | some lv =>
      if isNull lv then .error ()
      else
        match asString (registryVal d) with
        | none => .error ()
        | some reg =>
            match extractRepoUrl lv with
            | .error e => .error e
            | .ok su =>
                match aggContributors lv with
                | .error e => .error e
                | .ok cs => .ok (buildRecord d lv reg su cs)

/-- The spec's two failure kinds: a parse throw versus a derivation throw. -/
inductive ErrKind where
  | invalidFormat : ErrKind
  | invalidPackageMetadata : ErrKind
deriving DecidableEq

/-- Outcome of one invocation of the machine. -/
inductive FnResult where
  | invalid : ErrKind → FnResult
  | success : Record → FnResult

/-- The whole machine `fn`, over the outcome of the platform `JSON.parse`
(`none` models a parse throw, line 68-73). -/
def fn : Option JVal → FnResult
  | none => .invalid .invalidFormat
  | some d =>
      match derive d with
      | .ok r => .success r
      | .error _ => .invalid .invalidPackageMetadata

/-- The machine's declared exits; `fn` never takes the `error` exit. -/
inductive Exit where
  | invalid : Exit
  | success : Exit
deriving DecidableEq

/-- Which exit a result is delivered through: both catch sites call
`exits.invalid` (lines 72 and 172). -/
def exitOf : FnResult → Exit
  | .invalid _ => .invalid
  | .success _ => .success

/-- Registry field of a successful result. -/
def registryOf : FnResult → Option String
  | .success r => some r.registry
  | _ => none

/-- `usesPublicRegistry` field of a successful result. -/
def upubOf : FnResult → Option Bool
  | .success r => some r.usesPublicRegistry
  | _ => none

/-- Dependencies of a successful result. -/
def depsOf : FnResult → Option (List Dependency)
  | .success r => some r.dependencies
  | _ => none

/-- Top-level `author` field of a successful result. -/
def authorOf : FnResult → Option (Option JVal)
  | .success r => some r.author
  | _ => none

/-- Contributor names of a successful result. -/
def contribNamesOf : FnResult → Option (List (Option JVal))
  | .success r => some (r.contributors.map Contributor.name)
  | _ => none

/-- Did the invocation produce a record? -/
def isSuccess : FnResult → Bool
  | .success _ => true
  | _ => false

/-! ## Auxiliary predicates and concrete documents used by the theorems -/

/-- `_.isString` on a possibly-`undefined` value. -/
def jsIsStringO : Option JVal → Bool
  | some (.str _) => true
  | _ => false

/-- `_.isObject` on a possibly-`undefined` value (lodash counts arrays). -/
def jsIsObjectO : Option JVal → Bool
  | some (.obj _) => true
  | some (.arr _) => true
  | _ => false

/-- The string ends in exactly one `/`: its last character is a slash and
the character before it, when there is one, is not. -/
def endsWithExactlyOneSlash (u : String) : Prop :=
  u.data.getLast? = some '/' ∧ ¬ u.data.dropLast.getLast? = some '/'

/-- Resolved-manifest selection as claim C2 words it, conditioned on the
presence of `dist-tags` (so `versions[dist-tags.latest]` even when
`versions` is absent, in which case the entry does not exist).  Written from
the claim's words for comparison with `resolvedManifest`, which is
translated from the source. -/
def claimedResolvedManifest (d : JVal) : Option JVal :=
  match jsGetV d "dist-tags" with
  | some dt =>
      (match jsGetV d "versions" with
       | some vs => jsGetV vs (jsStringO (jsGetV dt "latest"))
       | none => none)
  | none => some d

/-- A registry document whose `versions` mapping lacks the
`dist-tags.latest` entry. -/
def docMissingLatest : JVal :=
  .obj [("dist-tags", .obj [("latest", .str "1.0.0")]),
        ("versions", .obj [("0.9.0", .obj [])])]

/-- A document with `dist-tags` but no `versions` mapping. -/
def docTagsNoVersions : JVal :=
  .obj [("dist-tags", .obj [("latest", .str "1.0.0")]),
        ("version", .str "2.0.0"),
        ("dependencies", .obj [("lodash", .str "^1.0.0")])]

/-- A registry document with matching `dist-tags` and `versions`. -/
def docRegistry : JVal :=
  .obj [("dist-tags", .obj [("latest", .str "1.0.0")]),
        ("versions", .obj [("1.0.0",
            .obj [("dependencies", .obj [("a", .str "^1.0.0")])])])]

/-- The sub-manifest held by `docRegistry` under version `1.0.0`. -/
def docRegistrySub : JVal := .obj [("dependencies", .obj [("a", .str "^1.0.0")])]

/-- A manifest with no `publishConfig`. -/
def docNoPublishConfig : JVal := .obj [("name", .str "foo")]

/-- A manifest whose registry differs from the default by a trailing slash. -/
def docSlashRegistry : JVal :=
  .obj [("publishConfig", .obj [("registry", .str "http://npmjs.org/")])]

/-- A manifest whose `repository` is a number. -/
def docNumRepository : JVal := .obj [("repository", .num 5)]

/-- A manifest whose `repository` is a non-GitHub string. -/
def docPlainRepository : JVal := .obj [("repository", .str "x")]

/-- The claim C7 example manifest: a string author duplicated in the
`contributors` array. -/
def docAnnBob : JVal :=
  .obj [("author", .str "Ann"),
        ("contributors", .arr [.obj [("name", .str "Ann")],
                               .obj [("name", .str "Bob")]])]

/-- A flat manifest with one dependency. -/
def docFlat : JVal :=
  .obj [("name", .str "p"), ("version", .str "0.1.1"),
        ("dependencies", .obj [("lodash", .str "~2.4.1")])]

/-- A registry document whose top-level author differs from the resolved
sub-manifest's author. -/
def docTwoAuthors : JVal :=
  .obj [("author", .str "Top Author"),
        ("dist-tags", .obj [("latest", .str "1.0.0")]),
        ("versions", .obj [("1.0.0", .obj [("author", .str "Sub Author")])])]

/-- The sub-manifest held by `docTwoAuthors` under version `1.0.0`. -/
def docTwoAuthorsSub : JVal := .obj [("author", .str "Sub Author")]

/-! ## Structural lemmas -/

/-- Inversion of a successful derivation: it fixes the resolved manifest,
registry string, source URL and contributor list, and the record is exactly
the one `buildRecord` assembles from them. -/
theorem derive_ok_inv (d : JVal) (r : Record) (h : derive d = .ok r) :
    ∃ lv reg su cs, resolvedManifest d = some lv ∧ isNull lv = false ∧
      asString (registryVal d) = some reg ∧ extractRepoUrl lv = .ok su ∧
      aggContributors lv = .ok cs ∧ r = buildRecord d lv reg su cs := by
  unfold derive at h
  split at h
  · cases h
  · rename_i lv heq
    split at h
    · cases h
    · rename_i hnull
      split at h
      · cases h
      · rename_i reg hreg
        split at h
        · cases h
        · rename_i su hsu
          split at h
          · cases h
          · rename_i cs hcs
            injection h with h
            exact ⟨lv, reg, su, cs, heq, by simpa using hnull, hreg, hsu, hcs,
              h.symm⟩

/-- A successful machine run comes from a successful derivation. -/
theorem fn_success_derive (d : JVal) (r : Record)
    (h : fn (some d) = .success r) : derive d = .ok r := by
  simp only [fn] at h
  cases hd : derive d with
  | error e => rw [hd] at h; cases h
  | ok r' => rw [hd] at h; injection h with h; subst h; rfl

/-- The head of `dropWhile p` never satisfies `p`. -/
theorem head_of_dropWhile_false {p : Char → Bool} :
    ∀ (l : List Char) (c : Char), (l.dropWhile p).head? = some c →
      p c = false := by
  intro l
  induction l with
  | nil => intro c h; cases h
  | cons a l ih =>
      intro c h
      by_cases hp : p a = true
      · rw [List.dropWhile_cons, if_pos hp] at h
        exact ih c h
      · rw [List.dropWhile_cons, if_neg hp] at h
        injection h with h
        subst h
        simpa using hp

/-- Appending one slash after stripping all trailing slashes yields a string
ending in exactly one slash. -/
theorem ensureSlash_ends (s : String) :
    endsWithExactlyOneSlash (ensureSlash s) := by
  unfold ensureSlash endsWithExactlyOneSlash
  constructor
  · simp
  · rw [show (String.mk ((s.data.reverse.dropWhile (fun c => c = '/')).reverse
        ++ ['/'])).data = (s.data.reverse.dropWhile (fun c => c = '/')).reverse
        ++ ['/'] from rfl]
    rw [List.dropLast_concat]
    intro hcontra
    rw [List.getLast?_reverse] at hcontra
    have := head_of_dropWhile_false _ _ hcontra
    simp at this

/-- Members of `uniqAux seen l` have names strictly unequal to every seen
key. -/
theorem uniqAux_not_seen :
    ∀ (l : List Contributor) (seen : List (Option JVal)) (c : Contributor),
      c ∈ uniqAux seen l → ∀ k ∈ seen, keyEq k c.name = false := by
  intro l
  induction l with
  | nil => intro seen c hc; simp [uniqAux] at hc
  | cons a l ih =>
      intro seen c hc k hk
      by_cases hs : (seen.any (fun k => keyEq k a.name)) = true
      · rw [uniqAux, if_pos hs] at hc
        exact ih seen c hc k hk
      · rw [uniqAux, if_neg hs] at hc
        rcases List.mem_cons.mp hc with h | h
        · subst h
          by_contra hne
          have hb : keyEq k c.name = true := by
            cases hkc : keyEq k c.name
            · exact absurd hkc hne
            · rfl
          exact hs (List.any_eq_true.mpr ⟨k, hk, hb⟩)
        · exact ih (a.name :: seen) c h k (List.mem_cons_of_mem _ hk)

/-- The output of `uniqAux` carries pairwise strictly-unequal names. -/
theorem uniqAux_pairwise :
    ∀ (l : List Contributor) (seen : List (Option JVal)),
      (uniqAux seen l).Pairwise (fun a b => keyEq a.name b.name = false) := by
  intro l
  induction l with
  | nil => intro seen; simp [uniqAux]
  | cons a l ih =>
      intro seen
      by_cases hs : (seen.any (fun k => keyEq k a.name)) = true
      · rw [uniqAux, if_pos hs]; exact ih seen
      · rw [uniqAux, if_neg hs]
        refine List.Pairwise.cons ?_ (ih _)
        intro b hb
        exact uniqAux_not_seen l (a.name :: seen) b hb a.name
          (List.mem_cons_self _ _)

/-! ## The claims -/

/-- Claim C1, counterexample: on a registry document whose `versions`
mapping lacks the `dist-tags.latest` entry, normalization does not return a
successful record — the dependencies access on the undefined manifest throws
and the invocation fails. -/
theorem claim1_counterexample :
    isSuccess (fn (some docMissingLatest)) = false ∧
    fn (some docMissingLatest) = .invalid .invalidPackageMetadata :=
  ⟨rfl, rfl⟩

/-- Claim C1 (amended): whenever version resolution finds no manifest
(`versions` truthy but lacking the effective-version entry), the whole
invocation fails through the derivation-throw failure kind; no record, full
or partial, is produced. -/
theorem claim1_amended_no_manifest_fails :
    ∀ d : JVal, resolvedManifest d = none →
      fn (some d) = .invalid .invalidPackageMetadata := by
  intro d h
  simp [fn, derive, h]

/-- Claim C1 witness: the amended statement at the concrete document. -/
theorem claim1_witness :
    resolvedManifest docMissingLatest = none ∧
    fn (some docMissingLatest) = .invalid .invalidPackageMetadata :=
  ⟨rfl, claim1_amended_no_manifest_fails docMissingLatest rfl⟩

/-- Claim C2, counterexample: on a document with `dist-tags` but no
`versions`, the claim's resolved manifest (`versions[dist-tags.latest]`)
does not exist, yet the code resolves the manifest to the document itself —
observably, the dependencies come from the document's own mapping. -/
theorem claim2_counterexample :
    claimedResolvedManifest docTagsNoVersions = none ∧
    resolvedManifest docTagsNoVersions = some docTagsNoVersions ∧
    depsOf (fn (some docTagsNoVersions)) =
      some [⟨.str "lodash", .str "^1.0.0"⟩] :=
  ⟨rfl, rfl, rfl⟩

/-- Claim C2 (amended): the effective version is `dist-tags.latest` when
`dist-tags` is truthy and the document's own `version` otherwise, while the
resolved manifest is `versions[effective version]` when `versions` is truthy
— regardless of `dist-tags` — and the document itself otherwise; every
successful record draws `version` from the former and `dependencies`,
`sourceUrl` and `contributors` from the latter. -/
theorem claim2_amended_resolution :
    ∀ (d : JVal) (r : Record), fn (some d) = .success r →
      r.version = effectiveVersion d ∧
      ∃ lv, resolvedManifest d = some lv ∧
        r.dependencies = lodashReduceDeps (jsGetV lv "dependencies") ∧
        extractRepoUrl lv = .ok r.sourceUrl ∧
        aggContributors lv = .ok r.contributors := by
  intro d r h
  obtain ⟨lv, reg, su, cs, h1, h2, h3, h4, h5, h6⟩ :=
    derive_ok_inv d r (fn_success_derive d r h)
  subst h6
  exact ⟨rfl, lv, h1, rfl, h4, h5⟩

/-- Claim C2 witness: the amended statement at a registry document with
matching `dist-tags` and `versions`. -/
theorem claim2_witness :
    fn (some docRegistry) =
      .success (buildRecord docRegistry docRegistrySub publicRegistry none []) ∧
    ((buildRecord docRegistry docRegistrySub publicRegistry none []).version =
        effectiveVersion docRegistry ∧
      ∃ lv, resolvedManifest docRegistry = some lv ∧
        (buildRecord docRegistry docRegistrySub publicRegistry none
            []).dependencies = lodashReduceDeps (jsGetV lv "dependencies") ∧
        extractRepoUrl lv = .ok (buildRecord docRegistry docRegistrySub
            publicRegistry none []).sourceUrl ∧
        aggContributors lv = .ok (buildRecord docRegistry docRegistrySub
            publicRegistry none []).contributors) :=
  ⟨rfl, claim2_amended_resolution docRegistry _ rfl⟩

/-- Claim C3: on every successful record, `usesPublicRegistry` holds exactly
when the raw registry string equals the default `http://npmjs.org`; a
document with no `publishConfig` gets the default registry and a true flag,
while a registry differing only by a trailing slash gets a false flag. -/
theorem claim3_uses_public_registry :
    (∀ d : JVal, upubOf (fn (some d)) =
        (registryOf (fn (some d))).map (fun s => s == publicRegistry)) ∧
    registryOf (fn (some docNoPublishConfig)) = some publicRegistry ∧
    upubOf (fn (some docNoPublishConfig)) = some true ∧
    upubOf (fn (some docSlashRegistry)) = some false := by
  refine ⟨?_, rfl, rfl, rfl⟩
  intro d
  simp only [fn]
  cases hd : derive d with
  | error e => rfl
  | ok r =>
      obtain ⟨lv, reg, su, cs, h1, h2, h3, h4, h5, h6⟩ := derive_ok_inv d r hd
      subst h6
      rfl

/-- Claim C4: the two canonicalization examples hold, and a `repository`
that is neither a string nor an object (lodash sense) yields an undefined
`sourceUrl` without throwing. -/
theorem claim4_repo_canonicalization :
    extractRepoUrl (.obj [("repository", .str "git@github.com:owner/repo.git")])
      = .ok (some "http://github.com/owner/repo/") ∧
    extractRepoUrl (.obj [("repository", .str "git://github.com/owner/repo")])
      = .ok (some "http://github.com/owner/repo/") ∧
    (∀ lv : JVal, jsIsStringO (jsGetV lv "repository") = false →
      jsIsObjectO (jsGetV lv "repository") = false →
      extractRepoUrl lv = .ok none) := by
  refine ⟨rfl, rfl, ?_⟩
  intro lv h1 h2
  cases hrep : jsGetV lv "repository" with
  | none => simp [extractRepoUrl, hrep]
  | some v =>
      cases v <;> simp_all [extractRepoUrl, jsIsStringO, jsIsObjectO]

/-- Claim C4 witness: a numeric `repository` is neither string nor object
and produces an undefined source URL. -/
theorem claim4_witness :
    jsIsStringO (jsGetV docNumRepository "repository") = false ∧
    jsIsObjectO (jsGetV docNumRepository "repository") = false ∧
    extractRepoUrl docNumRepository = .ok none :=
  ⟨rfl, rfl, claim4_repo_canonicalization.2.2 docNumRepository rfl rfl⟩

/-- Claim C5: every defined repository URL the derivation produces ends with
exactly one trailing slash. -/
theorem claim5_trailing_slash :
    ∀ (m : JVal) (u : String), extractRepoUrl m = .ok (some u) →
      endsWithExactlyOneSlash u := by
  intro m u h
  unfold extractRepoUrl at h
  split at h
  · injection h with h
    injection h with h
    rw [← h]
    exact ensureSlash_ends _
  · split at h
    · injection h with h
      injection h with h
      rw [← h]
      exact ensureSlash_ends _
    · cases h
  · cases h
  · injection h with h
    cases h

/-- Claim C5 witness: the general statement at a plain string repository. -/
theorem claim5_witness :
    extractRepoUrl docPlainRepository = .ok (some "x/") ∧
    endsWithExactlyOneSlash "x/" :=
  ⟨rfl, claim5_trailing_slash docPlainRepository "x/" rfl⟩

/-- Claim C6: on a flat manifest (no `dist-tags`, no `versions`) that
normalizes successfully, the record's `version` is the manifest's own
`version` field, and the dependencies are exactly the manifest's mapping in
iteration order — empty when the mapping is absent. -/
theorem claim6_flat_manifest :
    ∀ (d : JVal) (r : Record),
      jsGetV d "dist-tags" = none → jsGetV d "versions" = none →
      fn (some d) = .success r →
      r.version = jsGetV d "version" ∧
      (jsGetV d "dependencies" = none → r.dependencies = []) ∧
      (∀ fs : List (String × JVal), jsGetV d "dependencies" = some (.obj fs) →
        r.dependencies = fs.map (fun p => Dependency.mk (.str p.1) p.2)) := by
  intro d r hdt hvs h
  obtain ⟨lv, reg, su, cs, h1, h2, h3, h4, h5, h6⟩ :=
    derive_ok_inv d r (fn_success_derive d r h)
  have hlv : lv = d := by
    unfold resolvedManifest at h1
    rw [hvs] at h1
    injection h1 with h1
    exact h1.symm
  subst h6
  refine ⟨?_, ?_, ?_⟩
  · show effectiveVersion d = jsGetV d "version"
    unfold effectiveVersion
    rw [hdt]
  · intro hdep
    show lodashReduceDeps (jsGetV lv "dependencies") = []
    rw [hlv, hdep]
    rfl
  · intro fs hdep
    show lodashReduceDeps (jsGetV lv "dependencies") = _
    rw [hlv, hdep]
    rfl

/-- Claim C6 witness: the statement at a concrete flat manifest. -/
theorem claim6_witness :
    jsGetV docFlat "dist-tags" = none ∧ jsGetV docFlat "versions" = none ∧
    fn (some docFlat) = .success (buildRecord docFlat docFlat publicRegistry
      none []) ∧
    ((buildRecord docFlat docFlat publicRegistry none []).version =
        jsGetV docFlat "version" ∧
      (jsGetV docFlat "dependencies" = none →
        (buildRecord docFlat docFlat publicRegistry none []).dependencies = []) ∧
      (∀ fs : List (String × JVal),
        jsGetV docFlat "dependencies" = some (.obj fs) →
        (buildRecord docFlat docFlat publicRegistry none []).dependencies =
          fs.map (fun p => Dependency.mk (.str p.1) p.2))) :=
  ⟨rfl, rfl, rfl, claim6_flat_manifest docFlat _ rfl rfl rfl⟩

/-- Claim C7: the aggregation at the claim's example drops the duplicated
"Ann" and keeps first-seen order, and in general the deduplicated output
carries pairwise strictly-unequal names. -/
theorem claim7_contributor_dedup :
    aggContributors docAnnBob =
      .ok [⟨some (.str "Ann"), none⟩, ⟨some (.str "Bob"), none⟩] ∧
    (∀ (lv : JVal) (cs : List Contributor), aggContributors lv = .ok cs →
      cs.Pairwise (fun a b => keyEq a.name b.name = false)) := by
  refine ⟨rfl, ?_⟩
  intro lv cs h
  unfold aggContributors at h
  split at h
  · cases h
  · injection h with h
    rw [← h]
    exact uniqAux_pairwise _ _

/-- Claim C7 witness: the general pairwise-distinct-names statement at the
example manifest. -/
theorem claim7_witness :
    aggContributors docAnnBob =
      .ok [⟨some (.str "Ann"), none⟩, ⟨some (.str "Bob"), none⟩] ∧
    ([⟨some (.str "Ann"), none⟩, ⟨some (.str "Bob"), none⟩] :
        List Contributor).Pairwise (fun a b => keyEq a.name b.name = false) :=
  ⟨claim7_contributor_dedup.1,
    claim7_contributor_dedup.2 docAnnBob _ claim7_contributor_dedup.1⟩

/-- Claim C8: an unparseable input fails with the parse-failure kind, and
every invocation yields either a complete record or a failure — there is no
third, partial outcome. -/
theorem claim8_total_outcomes :
    fn none = .invalid .invalidFormat ∧
    ∀ p : Option JVal, (∃ r, fn p = .success r) ∨ (∃ k, fn p = .invalid k) := by
  refine ⟨rfl, ?_⟩
  intro p
  cases h : fn p with
  | invalid k => exact Or.inr ⟨k, rfl⟩
  | success r => exact Or.inl ⟨r, rfl⟩

/-- Claim C9: a parse failure and a derivation throw are delivered through
the one same `invalid` exit, so the exit taken cannot distinguish the two
failure kinds. -/
theorem claim9_single_failure_exit :
    exitOf (fn none) = Exit.invalid ∧
    (∀ (p : Option JVal) (k : ErrKind), fn p = .invalid k →
      exitOf (fn p) = Exit.invalid) ∧
    exitOf (.invalid .invalidFormat) = exitOf (.invalid .invalidPackageMetadata)
    := by
  refine ⟨rfl, ?_, rfl⟩
  intro p k h
  rw [h]
  rfl

/-- Claim C9 witness: the derivation-throw side at a concrete document (the
parsed text "null", whose first property access throws). -/
theorem claim9_witness :
    fn (some JVal.null) = .invalid .invalidPackageMetadata ∧
    exitOf (fn (some JVal.null)) = Exit.invalid :=
  ⟨rfl, claim9_single_failure_exit.2.1 (some JVal.null) .invalidPackageMetadata
    rfl⟩

/-- Claim C10: every successful record carries an `author` field copied from
the document's top level; in the registry case the contributors still come
from the resolved sub-manifest, whose own author is not the record's
`author`. -/
theorem claim10_top_level_author :
    (∀ (d : JVal) (r : Record), fn (some d) = .success r →
      r.author = jsGetV d "author") ∧
    authorOf (fn (some docTwoAuthors)) = some (some (.str "Top Author")) ∧
    contribNamesOf (fn (some docTwoAuthors)) = some [some (.str "Sub Author")]
    := by
  refine ⟨?_, rfl, rfl⟩
  intro d r h
  obtain ⟨lv, reg, su, cs, h1, h2, h3, h4, h5, h6⟩ :=
    derive_ok_inv d r (fn_success_derive d r h)
  subst h6
  rfl

/-- Claim C10 witness: the general statement at the two-author registry
document. -/
theorem claim10_witness :
    fn (some docTwoAuthors) = .success (buildRecord docTwoAuthors
      docTwoAuthorsSub publicRegistry none [⟨some (.str "Sub Author"), none⟩]) ∧
    (buildRecord docTwoAuthors docTwoAuthorsSub publicRegistry none
      [⟨some (.str "Sub Author"), none⟩]).author = jsGetV docTwoAuthors "author"
    :=
  ⟨rfl, claim10_top_level_author.1 docTwoAuthors _ rfl⟩

end ParsePackageJson
